import Mathlib

/-!
Verification of the step-to-job orchestration engine of the `lab` package
(`lab/environments.py`, `lab/tools.py`).  The Python code is shallowly
embedded: file contents are lists of characters, the interactive prompt
stream is a list of booleans, scheduler acknowledgements and status
outputs are strings supplied by oracles, and Python exceptions are modelled
with explicit result types.
-/

set_option autoImplicit false

namespace Lab

/-! ### Python-style text primitives

`lab` reads its registry file with `for line in f` (which yields the
physical lines of the file, each keeping its terminating newline) and
splits scheduler output with `str.splitlines(keepends=True)`.  For texts
whose only line breaks are newline characters - all texts the code writes
or the claims mention - both agree with the following splitter. -/

/-- Split a character list into lines, each line keeping its final
newline character (the last line may lack one).  Mirror of Python file
iteration and of `splitlines(keepends=True)` on newline-only texts. -/
def splitLinesAux : List Char → List Char → List (List Char)
  | [], [] => []
  | [], acc => [acc.reverse]
  | c :: rest, acc =>
    if c = '\n' then (acc.reverse ++ ['\n']) :: splitLinesAux rest []
    else splitLinesAux rest (c :: acc)

def splitLines (s : List Char) : List (List Char) :=
  splitLinesAux s []

/-- The whitespace characters recognised by Python's `str.split()`. -/
def isPyWS (c : Char) : Bool :=
  c = ' ' || c = '\t' || c = '\n' || c = '\r' || c = '\x0b' || c = '\x0c'

/-- Mirror of Python `str.split()` (no argument): split on runs of
whitespace, dropping empty fields. -/
def splitWSAux : List Char → List Char → List (List Char)
  | [], [] => []
  | [], acc => [acc.reverse]
  | c :: rest, acc =>
    if isPyWS c then
      if acc.isEmpty then splitWSAux rest []
      else acc.reverse :: splitWSAux rest []
    else splitWSAux rest (c :: acc)

def splitWS (s : List Char) : List (List Char) :=
  splitWSAux s []

/-! ### The job registry (`cluster_ids` file)

`GridEnvironment._read_id_file` returns `None` when the file is absent,
and otherwise parses every line into the dictionary
`{cluster_id, name, category, time}` with `time` re-joining the date and
time tokens.  Accessing `strings[4]` on a line with fewer than five
whitespace-separated tokens raises `IndexError`; iterating over the
`None` returned for an absent file raises `TypeError`.  Both exception
outcomes are represented by `PyResult.exn`. -/

structure JobRecord where
  cluster_id : List Char
  name : List Char
  category : List Char
  time : List Char
  deriving Repr, DecidableEq

/-- Result of running a piece of Python code: a value, or a raised
exception (`IndexError`, `TypeError`, ...). -/
inductive PyResult (α : Type) where
  | ok (a : α)
  | exn
  deriving Repr, DecidableEq

/-- One line of `_read_id_file`'s loop body: `strings = line.split()`
followed by the five indexed accesses. -/
def parseIdLine (line : List Char) : PyResult JobRecord :=
  match splitWS line with
  | s0 :: s1 :: s2 :: s3 :: s4 :: _ =>
    .ok { cluster_id := s0, name := s1, category := s2, time := s3 ++ ' ' :: s4 }
  | _ => .exn

def parseIdLines : List (List Char) → PyResult (List JobRecord)
  | [] => .ok []
  | l :: ls =>
    match parseIdLine l with
    | .exn => .exn
    | .ok r =>
      match parseIdLines ls with
      | .exn => .exn
      | .ok rs => .ok (r :: rs)

/-- `GridEnvironment._read_id_file`.  The argument is the registry file's
content, or `none` when the file does not exist (in which case the Python
function returns `None`, embedded as `.ok none`). -/
def read_id_file (file : Option (List Char)) : PyResult (Option (List JobRecord)) :=
  match file with
  | none => .ok none
  | some content =>
    match parseIdLines (splitLines content) with
    | .exn => .exn
    | .ok rs => .ok (some rs)

/-- `GridEnvironment.submitted_job_categories`: reads the id file and
collects the `category` field of every entry.  When `_read_id_file`
returns `None`, the `for entry in entries` loop raises `TypeError`. -/
def submitted_job_categories (file : Option (List Char)) : PyResult (List (List Char)) :=
  match read_id_file file with
  | .exn => .exn
  | .ok none => .exn
  | .ok (some entries) => .ok (entries.map (·.category))

/-- The registry line written by `_submit_job`:
`f"{cluster_id} {job_name} {category} {date} {time}\n"` (the `strftime`
format `%Y-%m-%d %H:%M:%S` renders as two whitespace-free tokens). -/
def mkIdLine (cid name category date time : List Char) : List Char :=
  cid ++ (' ' :: (name ++ (' ' :: (category ++ (' ' :: (date ++ (' ' :: (time ++ ['\n']))))))))

/-- `tools.write_file(..., append=True)`: opening with mode "a" creates
an absent file, then appends; prior content is never touched. -/
def append_to_file (file : Option (List Char)) (content : List Char) : List Char :=
  file.getD [] ++ content

/-- The five fields a submission renders into one registry line (the
date and time are separate `strftime` tokens when written). -/
structure SubmittedRecord where
  cluster_id : List Char
  name : List Char
  category : List Char
  date : List Char
  time : List Char
  deriving Repr, DecidableEq

/-- The entry `_read_id_file` yields for a record's line: the date and
time tokens are re-joined into the single `time` field. -/
def toJobRecord (r : SubmittedRecord) : JobRecord :=
  { cluster_id := r.cluster_id, name := r.name, category := r.category,
    time := r.date ++ ' ' :: r.time }

def recordLine (r : SubmittedRecord) : List Char :=
  mkIdLine r.cluster_id r.name r.category r.date r.time

/-- Appending a sequence of records to the registry file content, one
`write_file(..., append=True)` call per record. -/
def append_records (content : List Char) : List SubmittedRecord → List Char
  | [] => content
  | r :: rs => append_records (append_to_file (some content) (recordLine r)) rs

/-- A whitespace-free, non-empty field - the shape of every field the
code writes (ids and categories are fixed words or digit strings, job
names come from step/experiment names, the timestamp tokens are
`strftime` output). -/
def goodTokenB (t : List Char) : Bool :=
  !t.isEmpty && t.all fun c => !isPyWS c

def goodRecordB (r : SubmittedRecord) : Bool :=
  goodTokenB r.cluster_id && goodTokenB r.name && goodTokenB r.category
    && goodTokenB r.date && goodTokenB r.time

/-! ### Status polling

`FAISlurmEnvironment.check_cluster_status` queries `squeue -j <id>` for
every tracked entry; the job counts as completed exactly when the answer
is a single line containing `JOBID` (the bare header).  Anything else -
well-formed or not - sets `exists_running_job`.
`FAICondorEnvironment.check_cluster_status` queries `condor_q <id>`; the
job counts as completed for the 8-line answer whose sixth line starts
with the `Total for query: 0 jobs; ...` text, counts as running for any
9-line answer, and for every other shape prints "Something went wrong"
and still sets `exists_running_job` - no exception is raised.  Both
methods poll via an oracle `outOf` giving the scheduler's answer for a
cluster id. -/

/-- Substring test used for `"JOBID" in lines[0]`. -/
def containsSeq (needle hay : List Char) : Bool :=
  match hay with
  | [] => needle.isEmpty
  | _ :: rest => needle.isPrefixOf hay || containsSeq needle rest

def jobidHeader : List Char := "JOBID".data

/-- Slurm: `len(lines) == 1 and "JOBID" in lines[0]` recognises the
"no job found" response. -/
def slurmNoJobFound (out : List Char) : Bool :=
  match splitLines out with
  | [l] => containsSeq jobidHeader l
  | _ => false

/-- `FAISlurmEnvironment.check_cluster_status` (modulo printing):
`False` when there are no tracked entries (absent file or empty list),
otherwise true iff some tracked job's `squeue` answer is not the
"no job found" response. -/
def slurm_check_cluster_status (file : Option (List Char))
    (outOf : List Char → List Char) : PyResult Bool :=
  match read_id_file file with
  | .exn => .exn
  | .ok none => .ok false
  | .ok (some []) => .ok false
  | .ok (some entries) =>
    .ok (entries.any fun e => !slurmNoJobFound (outOf e.cluster_id))

def condorZeroJobsLine : List Char :=
  "Total for query: 0 jobs; 0 completed, 0 removed, 0 idle, 0 running, 0 held, 0 suspended".data

/-- The three branches of `FAICondorEnvironment.check_cluster_status`'s
classification of one `condor_q` answer. -/
inductive CondorResponse where
  | completed
  | stillListed
  | malformed
  deriving Repr, DecidableEq

def condorClassify (out : List Char) : CondorResponse :=
  let lines := splitLines out
  if lines.length = 8 && condorZeroJobsLine.isPrefixOf ((lines.getD 5 [])) then
    .completed
  else if lines.length = 9 then .stillListed
  else .malformed

/-- `FAICondorEnvironment.check_cluster_status` (modulo printing): the
`.stillListed` and `.malformed` branches both set `exists_running_job`. -/
def condor_check_cluster_status (file : Option (List Char))
    (outOf : List Char → List Char) : PyResult Bool :=
  match read_id_file file with
  | .exn => .exn
  | .ok none => .ok false
  | .ok (some []) => .ok false
  | .ok (some entries) =>
    .ok (entries.any fun e => condorClassify (outOf e.cluster_id) != .completed)

/-! ### Submission acknowledgement parsing

`FAISlurmEnvironment._submit_job` runs
`re.match(r"Submitted batch job (\d*)", out)`: the match is anchored at
the start of the output, the literal prefix must appear, and the group
captures the maximal - possibly empty - digit run directly after it.
`assert match` raises `AssertionError` only when the literal prefix is
missing.  `FAICondorEnvironment._submit_job` runs
`re.search(r"job\(s\) submitted to cluster (\d+).", out)`: the group
needs at least one digit and the unescaped `.` consumes one further
arbitrary character (backtracking into the digit run if the output ends
right after it). -/

def slurmAckLiteral : List Char := "Submitted batch job ".data

/-- Capture group of `re.match(r"Submitted batch job (\d*)", out)`. -/
def slurmParseAck (out : List Char) : Option (List Char) :=
  if slurmAckLiteral.isPrefixOf out then
    some ((out.drop slurmAckLiteral.length).takeWhile Char.isDigit)
  else none

def condorAckLiteral : List Char := "job(s) submitted to cluster ".data

/-- Attempt of the Condor pattern at one position: literal, then `(\d+)`,
then one arbitrary character (taken from the digit run's last digit when
nothing follows it). -/
def condorMatchAt (s : List Char) : Option (List Char) :=
  if condorAckLiteral.isPrefixOf s then
    let rest := s.drop condorAckLiteral.length
    let ds := rest.takeWhile Char.isDigit
    if ds.isEmpty then none
    else if (rest.drop ds.length).isEmpty then
      if ds.length ≥ 2 then some ds.dropLast else none
    else some ds
  else none

/-- `re.search`: try the pattern at every start position, left to right. -/
def condorParseAck : List Char → Option (List Char)
  | [] => none
  | s@(_ :: rest) =>
    match condorMatchAt s with
    | some g => some g
    | none => condorParseAck rest

/-- Effect of `FAISlurmEnvironment._submit_job` on the registry file:
`AssertionError` (`.exn`) when the pattern does not match, otherwise the
record line for the captured cluster id is appended and the id returned. -/
def slurm_submit_job (out : List Char) (file : Option (List Char))
    (job_name : List Char) (is_main_job : Bool) (date time : List Char) :
    PyResult (List Char × List Char) :=
  match slurmParseAck out with
  | none => .exn
  | some cid =>
    let category := if is_main_job then "main".data else "other".data
    .ok (append_to_file file (mkIdLine cid job_name category date time), cid)

/-- Effect of `FAICondorEnvironment._submit_job` on the registry file
(the Python method returns `None`; we also return the captured id). -/
def condor_submit_job (out : List Char) (file : Option (List Char))
    (job_name : List Char) (is_main_job : Bool) (date time : List Char) :
    PyResult (List Char × List Char) :=
  match condorParseAck out with
  | none => .exn
  | some cid =>
    let category := if is_main_job then "main".data else "other".data
    .ok (append_to_file file (mkIdLine cid job_name category date time), cid)

/-! ### `GridEnvironment.prepare_job_dir`

The world records exactly the artifacts the claims talk about: the
registry file (`cluster_ids`, which lives inside the job directory), the
job directory, the experiment directory and the evaluation directory.
`check_cluster_status`'s verdict enters as the boolean `isRunning`
(scheduler state is external), and the interactive prompt stream as a
list of answers consumed in order - `confirm_or_abort` and `answer_yes`
both treat anything but a literal "y" as "no", so an answer is a `Bool`.
`remove_cluster_jobs` only calls `squeue`/`scancel` and prints: it
touches none of the four artifacts, so its effect on the world is the
identity.  `tools.confirm_or_abort` exits the process via
`sys.exit("Aborted")` on "no"; the world at that moment is returned
together with the `userAbort` outcome.  Iterating the `None` that
`_read_id_file` yields for an absent registry raises `TypeError`
(`pyError`). -/

structure World where
  idFile : Option (List Char)
  jobDirExists : Bool
  expDirExists : Bool
  evalDirExists : Bool
  deriving Repr, DecidableEq

inductive Outcome where
  | userAbort
  | pyError
  deriving Repr, DecidableEq

/-- Stages of `prepare_job_dir` after the job-directory block: remove
the experiment dir for a build step, offer to remove the eval dir
(`answer_yes`: declining merely skips the removal), create the job dir. -/
def prepare_tail (w : World) (answers : List Bool) (hasBuildStep : Bool) :
    World × Option Outcome :=
  let w1 := if hasBuildStep then { w with expDirExists := false } else w
  let w2 :=
    if w1.evalDirExists then
      match answers with
      | [] => w1
      | a :: _ => if a then { w1 with evalDirExists := false } else w1
    else w1
  ({ w2 with jobDirExists := true }, none)

/-- Second half of the `if os.path.exists(job_dir)` block: when a run
step is selected and a `main` or `dag` submission is tracked, ask before
deleting the grid-steps directory (which contains the registry file). -/
def prepare_clear_job_dir (w : World) (answers : List Bool)
    (hasRunStep hasBuildStep : Bool) : World × Option Outcome :=
  if hasRunStep then
    match submitted_job_categories w.idFile with
    | .exn => (w, some .pyError)
    | .ok cats =>
      if cats.contains "main".data || cats.contains "dag".data then
        match answers with
        | [] => (w, some .userAbort)
        | a :: rest =>
          if a then
            prepare_tail { w with jobDirExists := false, idFile := none } rest hasBuildStep
          else (w, some .userAbort)
      else prepare_tail w answers hasBuildStep
  else prepare_tail w answers hasBuildStep

/-- `GridEnvironment.prepare_job_dir` (the returned path is constant and
omitted).  `isRunning` is the value `check_cluster_status(printout=False)`
reports for the current scheduler state. -/
def prepare_job_dir (w : World) (isRunning : Bool) (answers : List Bool)
    (hasRunStep hasBuildStep : Bool) : World × Option Outcome :=
  if w.jobDirExists then
    if isRunning then
      match answers with
      | [] => (w, some .userAbort)
      | a :: rest =>
        if a then prepare_clear_job_dir w rest hasRunStep hasBuildStep
        else (w, some .userAbort)
    else prepare_clear_job_dir w answers hasRunStep hasBuildStep
  else prepare_tail w answers hasBuildStep

/-! ### `LocalEnvironment.run_steps`

`for step in steps: step()` - each step's action is invoked in the given
order; an exception stops the loop and propagates.  A step is embedded
as an identifier together with its action's outcome. -/

structure LocalStep (ε : Type) where
  sid : Nat
  action : Except ε Unit

/-- Trace of executed step ids together with the propagated exception,
if any. -/
def local_run_steps {ε : Type} : List (LocalStep ε) → List Nat × Option ε
  | [] => ([], none)
  | s :: rest =>
    match s.action with
    | .error e => ([s.sid], some e)
    | .ok _ =>
      let r := local_run_steps rest
      (s.sid :: r.1, r.2)

/-! ### `GridEnvironment.run_steps` (Slurm chaining)

Jobs are submitted in step order; `prev_job_id` starts as `None` and is
replaced by each submission's returned cluster id, and
`FAISlurmEnvironment._submit_job` renders a dependency as the `sbatch`
arguments `-d afterany:<prev> --kill-on-invalid-dep=yes`.  The scheduler
assigns ids; the oracle `ids k` is the id returned for the k-th
submission. -/

structure SlurmSubmission where
  name : List Char
  dependency : Option (List Char)
  deriving Repr, DecidableEq

/-- The `sbatch` dependency arguments of `FAISlurmEnvironment._submit_job`. -/
def slurmDependencyArgs : Option (List Char) → List (List Char)
  | none => []
  | some dep => ["-d".data, "afterany:".data ++ dep, "--kill-on-invalid-dep=yes".data]

def slurm_run_steps_from (ids : Nat → List Char) :
    Nat → Option (List Char) → List (List Char) → List SlurmSubmission
  | _, _, [] => []
  | k, prev, n :: rest =>
    { name := n, dependency := prev } :: slurm_run_steps_from ids (k + 1) (some (ids k)) rest

/-- The submissions `GridEnvironment.run_steps` performs for the given
step job names. -/
def slurm_run_steps (ids : Nat → List Char) (names : List (List Char)) :
    List SlurmSubmission :=
  slurm_run_steps_from ids 0 none names

/-- The `PARENT ... CHILD ...` edges `FAICondorEnvironment.run_steps`
writes into the DAG file:
`for i, parent in enumerate(job_names[:-1]): child = job_names[i+1]`. -/
def condor_dag_edges (names : List (List Char)) : List (List Char × List Char) :=
  (List.range (names.length - 1)).map fun i => (names.getD i [], names.getD (i + 1) [])

/-! ### Batch grouping (`FAICondorEnvironment._get_job_params`)

In batch mode the run step's number of scheduler-visible jobs is
`ceil(num_tasks / max_batch_size)` (`math.ceil` on the exact quotient;
Python's float division is exact at every realistic magnitude). -/

def num_batches (num_tasks max_batch_size : Nat) : Nat :=
  (num_tasks + max_batch_size - 1) / max_batch_size

/-- Modelled from the spec: the `condor-batch-job.py` template that
splits the submitted runs into the batches (the template files under
`lab/data/` are not part of the provided sources).  Following the spec's
words, the R runs are distributed over `ceil(R/B)` groups "evenly
distributed" / "roughly-equal-sized (balanced ...)": the first `R mod g`
groups hold one run more than the remaining ones. -/
def balanced_batch_sizes (R B : Nat) : List Nat :=
  let g := num_batches R B
  (List.range g).map fun i => if i < R % g then R / g + 1 else R / g

/-! ### `tools.fill_template`

`template % parameters` performs textual substitution on the looked-up
template: a template is a sequence of literal chunks and `%(key)s`
references; a referenced key absent from the parameter map raises
`KeyError` (embedded as `Except.error key`). -/

inductive TemplatePart where
  | lit (s : List Char)
  | param (key : List Char)
  deriving Repr, DecidableEq

def fill_template (t : List TemplatePart) (params : List Char → Option (List Char)) :
    Except (List Char) (List Char) :=
  match t with
  | [] => .ok []
  | .lit s :: rest =>
    match fill_template rest params with
    | .error k => .error k
    | .ok tail => .ok (s ++ tail)
  | .param key :: rest =>
    match params key with
    | none => .error key
    | some v =>
      match fill_template rest params with
      | .error k => .error k
      | .ok tail => .ok (v ++ tail)

/-- The parameter keys a template references. -/
def templateKeys : List TemplatePart → List (List Char)
  | [] => []
  | .lit _ :: rest => templateKeys rest
  | .param key :: rest => key :: templateKeys rest

/-! ### Grid job names

`_get_job_prefix` prepends `"j"` when the experiment name starts with a
digit and always appends `"-"`; `_get_job_name` renders
`f"{prefix}{position:02d}-{step.name}"` with the 1-based step position. -/

def get_job_prefix_chars (exp_name : List Char) : List Char :=
  (if (exp_name.headD ' ').isDigit then ['j'] else []) ++ exp_name ++ ['-']

/-- Python's `"%02d"` formatting of a natural number: zero-padded to
width two, wider numbers printed in full. -/
def format02d (n : Nat) : List Char :=
  if n < 10 then '0' :: (Nat.repr n).data else (Nat.repr n).data

def get_job_name_chars (exp_name : List Char) (position : Nat) (step_name : List Char) :
    List Char :=
  get_job_prefix_chars exp_name ++ format02d position ++ '-' :: step_name

/-! ### Supporting lemmas -/

theorem format02d_length_two : ∀ n < 100, (format02d n).length = 2 := by decide

theorem balanced_sum (q : Nat) :
    ∀ g r : Nat, r ≤ g →
      (((List.range g).map fun i => if i < r then q + 1 else q).sum) = g * q + r := by
  intro g
  induction g with
  | zero =>
    intro r hr
    have : r = 0 := by omega
    subst this
    simp
  | succ g ih =>
    intro r hr
    rw [List.range_succ, List.map_append, List.sum_append]
    by_cases h : r ≤ g
    · rw [ih r h]
      have hg : ¬ g < r := by omega
      simp only [List.map_cons, List.map_nil, List.sum_cons, List.sum_nil, if_neg hg]
      ring
    · have hrg : r = g + 1 := by omega
      subst hrg
      have hconst : ((List.range g).map fun i => if i < g + 1 then q + 1 else q)
          = List.replicate g (q + 1) := by
        rw [show ((List.range g).map fun i => if i < g + 1 then q + 1 else q)
              = (List.range g).map fun _ => q + 1 from
            List.map_congr_left fun a ha =>
              if_pos (by have := List.mem_range.mp ha; omega)]
        simp
      rw [hconst, List.sum_const_nat]
      simp only [List.map_cons, List.map_nil, List.sum_cons, List.sum_nil,
        if_pos (by omega : g < g + 1)]
      ring

theorem num_batches_pos {R B : Nat} (hR : 1 ≤ R) (hB : 1 ≤ B) :
    1 ≤ num_batches R B := by
  unfold num_batches
  rw [Nat.le_div_iff_mul_le (by omega)]
  omega

theorem slurm_run_steps_from_get? (ids : Nat → List Char) :
    ∀ (names : List (List Char)) (k0 : Nat) (prev : Option (List Char)) (i : Nat),
      i < names.length →
      (slurm_run_steps_from ids k0 prev names).get? i =
        some { name := names.getD i [],
               dependency := match i with
                             | 0 => prev
                             | j + 1 => some (ids (k0 + j)) } := by
  intro names
  induction names with
  | nil => intro _ _ i hi; simp at hi
  | cons n rest ih =>
    intro k0 prev i hi
    match i with
    | 0 => rfl
    | j + 1 =>
      have hj : j < rest.length := by simpa using hi
      show (slurm_run_steps_from ids (k0 + 1) (some (ids k0)) rest).get? j = _
      rw [ih (k0 + 1) (some (ids k0)) j hj]
      match j with
      | 0 => simp
      | m + 1 =>
        simp only [List.getD_cons_succ]
        have : k0 + 1 + m = k0 + (m + 1) := by omega
        rw [this]

theorem slurm_run_steps_from_length (ids : Nat → List Char) :
    ∀ (names : List (List Char)) (k0 : Nat) (prev : Option (List Char)),
      (slurm_run_steps_from ids k0 prev names).length = names.length := by
  intro names
  induction names with
  | nil => intro _ _; rfl
  | cons n rest ih =>
    intro k0 prev
    show (slurm_run_steps_from ids (k0 + 1) (some (ids k0)) rest).length + 1
         = rest.length + 1
    rw [ih (k0 + 1) (some (ids k0))]

theorem isEmpty_false_of_ne_nil {α : Type} {l : List α} (h : l ≠ []) :
    l.isEmpty = false := by
  cases l
  · exact absurd rfl h
  · rfl

theorem splitLinesAux_append (l : List Char) (hl : ∀ c ∈ l, c ≠ '\n') :
    ∀ (acc rest : List Char),
      splitLinesAux (l ++ '\n' :: rest) acc
        = (acc.reverse ++ l ++ ['\n']) :: splitLinesAux rest [] := by
  induction l with
  | nil =>
    intro acc rest
    show splitLinesAux ('\n' :: rest) acc = _
    simp [splitLinesAux]
  | cons c cl ih =>
    intro acc rest
    have hc : c ≠ '\n' := hl c (by simp)
    show splitLinesAux (c :: (cl ++ '\n' :: rest)) acc = _
    simp only [splitLinesAux, if_neg hc]
    rw [ih (fun x hx => hl x (by simp [hx])) (c :: acc) rest]
    simp

theorem splitWSAux_token (t : List Char) (ht : ∀ c ∈ t, isPyWS c = false) :
    ∀ (acc rest : List Char),
      splitWSAux (t ++ rest) acc = splitWSAux rest (t.reverse ++ acc) := by
  induction t with
  | nil => intro acc rest; simp
  | cons c cl ih =>
    intro acc rest
    have hc : isPyWS c = false := ht c (by simp)
    show splitWSAux (c :: (cl ++ rest)) acc = _
    simp only [splitWSAux, hc, Bool.false_eq_true, if_false]
    rw [ih (fun x hx => ht x (by simp [hx])) (c :: acc) rest]
    simp

theorem splitWS_sep (t rest : List Char) (ht : ∀ c ∈ t, isPyWS c = false)
    (htne : t ≠ []) (c : Char) (hc : isPyWS c = true) :
    splitWS (t ++ c :: rest) = t :: splitWS rest := by
  unfold splitWS
  rw [splitWSAux_token t ht [] (c :: rest)]
  have hrev : t.reverse ≠ [] := by
    intro h
    exact htne (by simpa using congrArg List.reverse h)
  show splitWSAux (c :: rest) (t.reverse ++ []) = _
  simp only [List.append_nil, splitWSAux, hc, if_pos,
    isEmpty_false_of_ne_nil hrev, Bool.false_eq_true, if_false, List.reverse_reverse]

theorem splitWS_final (t : List Char) (ht : ∀ c ∈ t, isPyWS c = false)
    (htne : t ≠ []) (c : Char) (hc : isPyWS c = true) :
    splitWS (t ++ [c]) = [t] := by
  have := splitWS_sep t [] ht htne c hc
  simpa [splitWS, splitWSAux] using this

theorem goodTokenB_spec (t : List Char) (h : goodTokenB t = true) :
    t ≠ [] ∧ ∀ c ∈ t, isPyWS c = false := by
  unfold goodTokenB at h
  obtain ⟨h1, h2⟩ := Bool.and_eq_true_iff.mp h
  constructor
  · intro hnil
    rw [hnil] at h1
    cases h1
  · intro c hc
    have := List.all_eq_true.mp h2 c hc
    simpa using this

theorem no_newline_of_not_ws {c : Char} (h : isPyWS c = false) : c ≠ '\n' := by
  intro hc
  subst hc
  cases h

theorem splitWS_idLine (t1 t2 t3 t4 t5 : List Char)
    (h1 : goodTokenB t1 = true) (h2 : goodTokenB t2 = true)
    (h3 : goodTokenB t3 = true) (h4 : goodTokenB t4 = true)
    (h5 : goodTokenB t5 = true) :
    splitWS (mkIdLine t1 t2 t3 t4 t5) = [t1, t2, t3, t4, t5] := by
  obtain ⟨n1, w1⟩ := goodTokenB_spec t1 h1
  obtain ⟨n2, w2⟩ := goodTokenB_spec t2 h2
  obtain ⟨n3, w3⟩ := goodTokenB_spec t3 h3
  obtain ⟨n4, w4⟩ := goodTokenB_spec t4 h4
  obtain ⟨n5, w5⟩ := goodTokenB_spec t5 h5
  unfold mkIdLine
  rw [splitWS_sep t1 _ w1 n1 ' ' rfl, splitWS_sep t2 _ w2 n2 ' ' rfl,
    splitWS_sep t3 _ w3 n3 ' ' rfl, splitWS_sep t4 _ w4 n4 ' ' rfl,
    splitWS_final t5 w5 n5 '\n' rfl]

theorem parseIdLine_recordLine (r : SubmittedRecord) (h : goodRecordB r = true) :
    parseIdLine (recordLine r) = .ok (toJobRecord r) := by
  unfold goodRecordB at h
  have h5 := Bool.and_eq_true_iff.mp h
  have h4 := Bool.and_eq_true_iff.mp h5.1
  have h3 := Bool.and_eq_true_iff.mp h4.1
  have h2 := Bool.and_eq_true_iff.mp h3.1
  unfold parseIdLine recordLine
  rw [splitWS_idLine _ _ _ _ _ h2.1 h2.2 h3.2 h4.2 h5.2]
  rfl

def idLineBody (t1 t2 t3 t4 t5 : List Char) : List Char :=
  t1 ++ (' ' :: (t2 ++ (' ' :: (t3 ++ (' ' :: (t4 ++ (' ' :: t5)))))))

theorem mkIdLine_body (t1 t2 t3 t4 t5 : List Char) :
    mkIdLine t1 t2 t3 t4 t5 = idLineBody t1 t2 t3 t4 t5 ++ ['\n'] := by
  simp [mkIdLine, idLineBody]

theorem mkIdLine_body_no_newline (t1 t2 t3 t4 t5 : List Char)
    (w1 : ∀ c ∈ t1, isPyWS c = false) (w2 : ∀ c ∈ t2, isPyWS c = false)
    (w3 : ∀ c ∈ t3, isPyWS c = false) (w4 : ∀ c ∈ t4, isPyWS c = false)
    (w5 : ∀ c ∈ t5, isPyWS c = false) :
    ∀ c ∈ idLineBody t1 t2 t3 t4 t5, c ≠ '\n' := by
  intro c hc
  simp only [idLineBody, List.mem_append, List.mem_cons] at hc
  rcases hc with h | h | h | h | h | h | h | h | h <;>
    first
      | (subst h; decide)
      | exact no_newline_of_not_ws (w1 c h)
      | exact no_newline_of_not_ws (w2 c h)
      | exact no_newline_of_not_ws (w3 c h)
      | exact no_newline_of_not_ws (w4 c h)
      | exact no_newline_of_not_ws (w5 c h)

theorem parse_join_recordLines (rs : List SubmittedRecord)
    (h : ∀ r ∈ rs, goodRecordB r = true) :
    parseIdLines (splitLines ((rs.map recordLine).join)) = .ok (rs.map toJobRecord) := by
  induction rs with
  | nil => rfl
  | cons r rest ih =>
    have hr : goodRecordB r = true := h r (by simp)
    obtain ⟨g1, g2, g3, g4, g5⟩ : goodTokenB r.cluster_id = true
        ∧ goodTokenB r.name = true ∧ goodTokenB r.category = true
        ∧ goodTokenB r.date = true ∧ goodTokenB r.time = true := by
      unfold goodRecordB at hr
      have h5 := Bool.and_eq_true_iff.mp hr
      have h4 := Bool.and_eq_true_iff.mp h5.1
      have h3 := Bool.and_eq_true_iff.mp h4.1
      have h2 := Bool.and_eq_true_iff.mp h3.1
      exact ⟨h2.1, h2.2, h3.2, h4.2, h5.2⟩
    have hbody := mkIdLine_body_no_newline r.cluster_id r.name r.category r.date r.time
      (goodTokenB_spec _ g1).2 (goodTokenB_spec _ g2).2 (goodTokenB_spec _ g3).2
      (goodTokenB_spec _ g4).2 (goodTokenB_spec _ g5).2
    have hjoin : (((r :: rest).map recordLine).join)
        = idLineBody r.cluster_id r.name r.category r.date r.time
            ++ '\n' :: ((rest.map recordLine).join) := by
      show recordLine r ++ (rest.map recordLine).join = _
      rw [recordLine, mkIdLine_body, List.append_assoc]
      rfl
    rw [hjoin]
    unfold splitLines
    rw [splitLinesAux_append _ hbody [] _]
    show parseIdLines ((List.reverse [] ++ idLineBody r.cluster_id r.name r.category
        r.date r.time ++ ['\n']) :: splitLines ((rest.map recordLine).join)) = _
    unfold parseIdLines
    rw [show (List.reverse ([] : List Char) ++ idLineBody r.cluster_id r.name r.category
          r.date r.time ++ ['\n']) = recordLine r from by
        rw [recordLine, mkIdLine_body]; simp,
      parseIdLine_recordLine r hr, ih fun x hx => h x (by simp [hx])]
    rfl

theorem append_records_join (rs : List SubmittedRecord) :
    ∀ content : List Char,
      append_records content rs = content ++ (rs.map recordLine).join := by
  induction rs with
  | nil => intro content; simp [append_records]
  | cons r rest ih =>
    intro content
    show append_records (append_to_file (some content) (recordLine r)) rest = _
    rw [ih]
    simp [append_to_file]

theorem condorMatchAt_group_digits (s cid : List Char)
    (h : condorMatchAt s = some cid) : cid ≠ [] ∧ cid.all Char.isDigit = true := by
  unfold condorMatchAt at h
  by_cases hp : condorAckLiteral.isPrefixOf s
  · rw [if_pos hp] at h
    simp only at h
    set rest := s.drop condorAckLiteral.length with hrest
    by_cases hds : (rest.takeWhile Char.isDigit).isEmpty
    · rw [if_pos hds] at h; cases h
    · rw [if_neg hds] at h
      have hall : (rest.takeWhile Char.isDigit).all Char.isDigit = true :=
        List.all_eq_true.mpr fun c hc => List.mem_takeWhile_imp hc
      have hne : rest.takeWhile Char.isDigit ≠ [] := by
        intro hnil; rw [hnil] at hds; exact hds rfl
      by_cases hdrop : (rest.drop (rest.takeWhile Char.isDigit).length).isEmpty
      · rw [if_pos hdrop] at h
        by_cases hlen : (rest.takeWhile Char.isDigit).length ≥ 2
        · rw [if_pos hlen] at h
          cases h
          constructor
          · intro hnil
            have := congrArg List.length hnil
            rw [List.length_dropLast] at this
            simp at this
            omega
          · exact List.all_eq_true.mpr fun c hc =>
              List.all_eq_true.mp hall c (List.dropLast_subset _ hc)
        · rw [if_neg hlen] at h; cases h
      · rw [if_neg hdrop] at h
        cases h
        exact ⟨hne, hall⟩
  · rw [if_neg hp] at h; cases h

theorem condorParseAck_group_digits (out cid : List Char)
    (h : condorParseAck out = some cid) : cid ≠ [] ∧ cid.all Char.isDigit = true := by
  induction out with
  | nil => cases h
  | cons c rest ih =>
    unfold condorParseAck at h
    cases hm : condorMatchAt (c :: rest) with
    | some g =>
      rw [hm] at h
      cases h
      exact condorMatchAt_group_digits _ _ hm
    | none =>
      rw [hm] at h
      exact ih h

/-! ### Claim theorems -/

/-- C4: for R >= 1 runs and maximum batch size B >= 1, batch grouping
yields exactly ceil(R/B) groups (which is also the number of
scheduler-visible jobs the Condor header requests), the groups cover all
R runs, and group sizes differ by at most 1; in particular R=101, B=100
gives two groups of 51 and 50 runs. -/
theorem batch_grouping_balanced (R B : Nat) (hR : 1 ≤ R) (hB : 1 ≤ B) :
    (balanced_batch_sizes R B).length = num_batches R B
    ∧ (balanced_batch_sizes R B).sum = R
    ∧ (∀ a ∈ balanced_batch_sizes R B, ∀ b ∈ balanced_batch_sizes R B, a ≤ b + 1) := by
  have hg : 1 ≤ num_batches R B := num_batches_pos hR hB
  refine ⟨by simp [balanced_batch_sizes], ?_, ?_⟩
  · show (((List.range (num_batches R B)).map
        fun i => if i < R % num_batches R B then R / num_batches R B + 1
                 else R / num_batches R B).sum) = R
    rw [balanced_sum _ _ _ (le_of_lt (Nat.mod_lt R (by omega)))]
    have := Nat.div_add_mod R (num_batches R B)
    omega
  · intro a ha b hb
    have hmem : ∀ x ∈ balanced_batch_sizes R B,
        x = R / num_batches R B + 1 ∨ x = R / num_batches R B := by
      intro x hx
      unfold balanced_batch_sizes at hx
      obtain ⟨i, _, hxe⟩ := List.mem_map.mp hx
      by_cases h : i < R % num_batches R B
      · left; rw [← hxe]; simp [h]
      · right; rw [← hxe]; simp [h]
    rcases hmem a ha with h1 | h1 <;> rcases hmem b hb with h2 | h2 <;> omega

/-- C4 witness: the theorem applied at R = 101, B = 100; the partition
evaluates to the two groups of sizes 51 and 50. -/
theorem batch_grouping_balanced_witness :
    ((balanced_batch_sizes 101 100).length = num_batches 101 100
      ∧ (balanced_batch_sizes 101 100).sum = 101
      ∧ (∀ a ∈ balanced_batch_sizes 101 100, ∀ b ∈ balanced_batch_sizes 101 100, a ≤ b + 1))
    ∧ balanced_batch_sizes 101 100 = [51, 50] :=
  ⟨batch_grouping_balanced 101 100 (by decide) (by decide), by decide⟩

/-- C10: the grid job name is the experiment-name prefix (with 'j'
prepended exactly when the experiment name starts with a digit, so the
job name never starts with a digit), followed by the zero-padded step
position and the step name; positions up to 99 render as two digits. -/
theorem grid_job_name_shape (exp_name : List Char) (position : Nat) (step_name : List Char)
    (hname : exp_name ≠ []) :
    (∀ c, (get_job_name_chars exp_name position step_name).head? = some c →
      c.isDigit = false)
    ∧ get_job_name_chars exp_name position step_name
        = get_job_prefix_chars exp_name ++ format02d position ++ '-' :: step_name
    ∧ (position ≤ 99 → (format02d position).length = 2) := by
  refine ⟨?_, rfl, fun hp => format02d_length_two position (by omega)⟩
  intro c hc
  match exp_name, hname with
  | a :: as, _ =>
    by_cases hd : a.isDigit
    · simp [get_job_name_chars, get_job_prefix_chars, hd] at hc
      subst hc
      decide
    · simp [get_job_name_chars, get_job_prefix_chars, hd] at hc
      subst hc
      simpa using hd

/-- C10 witness: an experiment name starting with a digit at step
position 3. -/
theorem grid_job_name_shape_witness :
    ((∀ c, (get_job_name_chars "2024exp".data 3 "run".data).head? = some c →
        c.isDigit = false)
      ∧ get_job_name_chars "2024exp".data 3 "run".data
          = get_job_prefix_chars "2024exp".data ++ format02d 3 ++ '-' :: "run".data
      ∧ (3 ≤ 99 → (format02d 3).length = 2))
    ∧ get_job_name_chars "2024exp".data 3 "run".data = "j2024exp-03-run".data :=
  ⟨grid_job_name_shape "2024exp".data 3 "run".data (by decide), by decide⟩

/-- C1: in grid mode the k+1-st submission of a chain depends on exactly
the cluster id the scheduler returned for the k-th submission - the
first submission carries no dependency, and the Slurm-like backend
renders the dependency as an "afterany" directive, which under distinct
cluster ids can never coincide with the directive of another step; the
Condor-like backend's DAG has exactly the PARENT step-k CHILD step-k+1
edges. -/
theorem grid_chain_dependencies (ids : Nat → List Char) (names : List (List Char)) :
    (slurm_run_steps ids names).length = names.length
    ∧ (∀ h0 : 0 < names.length,
        (slurm_run_steps ids names).get? 0
          = some { name := names.getD 0 [], dependency := none })
    ∧ (∀ k, k + 1 < names.length →
        (slurm_run_steps ids names).get? (k + 1)
          = some { name := names.getD (k + 1) [], dependency := some (ids k) })
    ∧ slurmDependencyArgs none = []
    ∧ (∀ k, slurmDependencyArgs (some (ids k))
        = ["-d".data, "afterany:".data ++ ids k, "--kill-on-invalid-dep=yes".data])
    ∧ (Function.Injective ids → ∀ k k' : Nat, k ≠ k' →
        "afterany:".data ++ ids k ≠ "afterany:".data ++ ids k')
    ∧ (condor_dag_edges names).length = names.length - 1
    ∧ (∀ k, k + 1 < names.length →
        (condor_dag_edges names).get? k
          = some (names.getD k [], names.getD (k + 1) [])) := by
  refine ⟨slurm_run_steps_from_length ids names 0 none, ?_, ?_, rfl, fun _ => rfl, ?_, ?_, ?_⟩
  · intro h0
    exact slurm_run_steps_from_get? ids names 0 none 0 h0
  · intro k hk
    have := slurm_run_steps_from_get? ids names 0 none (k + 1) hk
    simpa using this
  · intro hinj k k' hne heq
    exact hne (hinj (List.append_cancel_left heq))
  · simp [condor_dag_edges]
  · intro k hk
    have hk' : k < names.length - 1 := by omega
    rw [condor_dag_edges, List.get?_map, List.get?_range hk', Option.map_some']

/-- C1 witness: a three-step chain; its second and third submissions
depend on the first and second returned ids, and its DAG edges link
consecutive steps. -/
theorem grid_chain_dependencies_witness :
    ((slurm_run_steps (fun k => Nat.repr (100 + k) |>.data)
        ["a01-build".data, "a02-run".data, "a03-eval".data]).length = 3
      ∧ (∀ h0 : 0 < (3:Nat),
          (slurm_run_steps (fun k => Nat.repr (100 + k) |>.data)
            ["a01-build".data, "a02-run".data, "a03-eval".data]).get? 0
            = some { name := "a01-build".data, dependency := none })
      ∧ (∀ k, k + 1 < 3 →
          (slurm_run_steps (fun k => Nat.repr (100 + k) |>.data)
            ["a01-build".data, "a02-run".data, "a03-eval".data]).get? (k + 1)
            = some { name := (["a01-build".data, "a02-run".data, "a03-eval".data]).getD (k + 1) [],
                     dependency := some (Nat.repr (100 + k) |>.data) }))
    ∧ condor_dag_edges ["a01-build".data, "a02-run".data, "a03-eval".data]
        = [("a01-build".data, "a02-run".data), ("a02-run".data, "a03-eval".data)] := by
  have h := grid_chain_dependencies (fun k => Nat.repr (100 + k) |>.data)
    ["a01-build".data, "a02-run".data, "a03-eval".data]
  refine ⟨⟨h.1, fun h0 => h.2.1 h0, fun k hk => ?_⟩, by decide⟩
  have := h.2.2.1 k hk
  simpa using this

/-- C2: local run_steps executes the steps' actions in exactly the given
order; when every action succeeds all steps run in order, and when the
action at position k raises, the steps after position k are not executed
and the exception is propagated. -/
theorem local_run_steps_order_and_abort {ε : Type} (steps : List (LocalStep ε)) :
    ((∀ s ∈ steps, s.action = .ok ()) →
        local_run_steps steps = (steps.map (·.sid), none))
    ∧ (∀ (k : Nat) (e : ε) (hk : k < steps.length),
        (∀ j (hj : j < k), (steps.get ⟨j, by omega⟩).action = .ok ()) →
        (steps.get ⟨k, hk⟩).action = .error e →
        local_run_steps steps = ((steps.take (k + 1)).map (·.sid), some e)) := by
  constructor
  · intro hok
    induction steps with
    | nil => rfl
    | cons s rest ih =>
      have hs : s.action = .ok () := hok s (by simp)
      simp only [local_run_steps, hs]
      rw [ih fun t ht => hok t (by simp [ht])]
      rfl
  · intro k e hk
    induction steps generalizing k with
    | nil => simp at hk
    | cons s rest ih =>
      intro hprev herr
      match k with
      | 0 =>
        simp only [List.get] at herr
        simp [local_run_steps, herr]
      | j + 1 =>
        have hs : s.action = .ok () := hprev 0 (by omega)
        have hj : j < rest.length := by simpa using hk
        simp only [local_run_steps, hs]
        rw [ih j hj (fun i hi => hprev (i + 1) (by omega)) herr]
        rfl

/-- C2 witness: two runs - all steps succeeding execute in order, and a
failing second step stops execution after itself and propagates the
exception. -/
theorem local_run_steps_order_and_abort_witness :
    local_run_steps (ε := Nat) [⟨1, .ok ()⟩, ⟨2, .ok ()⟩, ⟨3, .ok ()⟩]
        = ([1, 2, 3], none)
    ∧ local_run_steps (ε := Nat) [⟨1, .ok ()⟩, ⟨2, .error 7⟩, ⟨3, .ok ()⟩]
        = ([1, 2], some 7) := by
  constructor
  · exact (local_run_steps_order_and_abort [⟨1, .ok ()⟩, ⟨2, .ok ()⟩, ⟨3, .ok ()⟩]).1
      (by intro s hs; fin_cases hs <;> rfl)
  · have h := (local_run_steps_order_and_abort
      (ε := Nat) [⟨1, .ok ()⟩, ⟨2, .error 7⟩, ⟨3, .ok ()⟩]).2 1 7 (by simp)
      (by intro j hj; interval_cases j; rfl) rfl
    simpa using h

/-- C9: the template renderer is deterministic (extensionally equal
parameter maps give identical output) and fails with the missing key's
error exactly when some key the template references is absent from the
parameter map. -/
theorem fill_template_deterministic_and_total (t : List TemplatePart)
    (p q : List Char → Option (List Char)) (hpq : ∀ k, p k = q k) :
    fill_template t p = fill_template t q
    ∧ ((∃ k ∈ templateKeys t, p k = none) ↔ ∃ e, fill_template t p = .error e) := by
  constructor
  · induction t with
    | nil => rfl
    | cons part rest ih =>
      cases part with
      | lit s => simp only [fill_template, ih]
      | param key => simp only [fill_template, hpq key, ih]
  · induction t with
    | nil => simp [fill_template, templateKeys]
    | cons part rest ih =>
      cases part with
      | lit s =>
        simp only [templateKeys, fill_template]
        rw [ih]
        cases fill_template rest p <;> simp
      | param key =>
        simp only [templateKeys, fill_template]
        cases hpk : p key with
        | none => simp [hpk]
        | some v =>
          rw [show ((∃ k ∈ key :: templateKeys rest, p k = none)
                ↔ ∃ k ∈ templateKeys rest, p k = none) from by simp [hpk], ih]
          cases fill_template rest p <;> simp

/-- C9 witness: a template with one literal and one referenced key,
rendered against a map supplying the key. -/
theorem fill_template_deterministic_and_total_witness :
    (fill_template [.lit "#SBATCH ".data, .param "qos".data]
        (fun k => if k = "qos".data then some "normal".data else none)
      = fill_template [.lit "#SBATCH ".data, .param "qos".data]
        (fun k => if k = "qos".data then some "normal".data else none)
      ∧ ((∃ k ∈ templateKeys [.lit "#SBATCH ".data, .param "qos".data],
            (fun k => if k = "qos".data then some "normal".data else none) k = none)
          ↔ ∃ e, fill_template [.lit "#SBATCH ".data, .param "qos".data]
              (fun k => if k = "qos".data then some "normal".data else none) = .error e))
    ∧ fill_template [.lit "#SBATCH ".data, .param "qos".data]
        (fun k => if k = "qos".data then some "normal".data else none)
        = .ok "#SBATCH normal".data :=
  ⟨fill_template_deterministic_and_total _ _ _ (fun _ => rfl), by rfl⟩

/-- C8: with the registry file absent, `_read_id_file` returns Python's
`None` - not an empty list - and `submitted_job_categories` then raises
`TypeError` by iterating over it, while `check_cluster_status` happens
to treat the `None` as falsy and reports no running job. -/
theorem registry_absent_file_behavior :
    read_id_file none = .ok none
    ∧ submitted_job_categories none = .exn
    ∧ slurm_check_cluster_status none (fun _ => []) = .ok false
    ∧ condor_check_cluster_status none (fun _ => []) = .ok false := by
  refine ⟨rfl, rfl, rfl, rfl⟩

/-- C6 counterexample: the one-line answer "garbage" matches neither the
Condor backend's completed form nor its 9-line still-queued form - it is
malformed - yet status polling returns the plain value true (job counted
as active) instead of raising a scheduler-protocol error. -/
theorem poll_malformed_counterexample :
    condorClassify "garbage".data = .malformed
    ∧ condor_check_cluster_status
        (some "11 j01-run main 2024-01-02 03:04:05\n".data)
        (fun _ => "garbage".data) = .ok true
    ∧ slurmNoJobFound "garbage\nmore\n".data = false
    ∧ slurm_check_cluster_status
        (some "11 j01-run main 2024-01-02 03:04:05\n".data)
        (fun _ => "garbage\nmore\n".data) = .ok true := by
  refine ⟨rfl, rfl, rfl, rfl⟩

/-- C6 (amended): a response recognized as "no job found" (Slurm: one
line containing JOBID; Condor: the 8-line zero-jobs form) makes the job
count as inactive, and every other response - well-formed or malformed -
makes it count as active without raising; the aggregate is true iff at
least one tracked job's response is not the "no job found" form. -/
theorem poll_status_classification (file : Option (List Char))
    (entries : List JobRecord) (outOf : List Char → List Char)
    (hread : read_id_file file = .ok (some entries)) :
    slurm_check_cluster_status file outOf
        = .ok (entries.any fun e => !slurmNoJobFound (outOf e.cluster_id))
    ∧ condor_check_cluster_status file outOf
        = .ok (entries.any fun e => condorClassify (outOf e.cluster_id) != .completed)
    ∧ (slurm_check_cluster_status file outOf = .ok true
        ↔ ∃ e ∈ entries, slurmNoJobFound (outOf e.cluster_id) = false)
    ∧ (condor_check_cluster_status file outOf = .ok true
        ↔ ∃ e ∈ entries, condorClassify (outOf e.cluster_id) ≠ .completed) := by
  have hs : slurm_check_cluster_status file outOf
      = .ok (entries.any fun e => !slurmNoJobFound (outOf e.cluster_id)) := by
    unfold slurm_check_cluster_status
    rw [hread]
    cases entries <;> rfl
  have hc : condor_check_cluster_status file outOf
      = .ok (entries.any fun e => condorClassify (outOf e.cluster_id) != .completed) := by
    unfold condor_check_cluster_status
    rw [hread]
    cases entries <;> rfl
  refine ⟨hs, hc, ?_, ?_⟩
  · rw [hs]
    constructor
    · intro h
      have : (entries.any fun e => !slurmNoJobFound (outOf e.cluster_id)) = true := by
        cases hx : entries.any fun e => !slurmNoJobFound (outOf e.cluster_id)
        · rw [hx] at h; cases h
        · rfl
      obtain ⟨e, he, hbe⟩ := List.any_eq_true.mp this
      exact ⟨e, he, by simpa using hbe⟩
    · intro ⟨e, he, hbe⟩
      have : (entries.any fun e => !slurmNoJobFound (outOf e.cluster_id)) = true :=
        List.any_eq_true.mpr ⟨e, he, by simp [hbe]⟩
      rw [this]
  · rw [hc]
    constructor
    · intro h
      have : (entries.any fun e => condorClassify (outOf e.cluster_id) != .completed) = true := by
        cases hx : entries.any fun e => condorClassify (outOf e.cluster_id) != .completed
        · rw [hx] at h; cases h
        · rfl
      obtain ⟨e, he, hbe⟩ := List.any_eq_true.mp this
      exact ⟨e, he, by simpa using hbe⟩
    · intro ⟨e, he, hbe⟩
      have : (entries.any fun e => condorClassify (outOf e.cluster_id) != .completed) = true :=
        List.any_eq_true.mpr ⟨e, he, by simpa using hbe⟩
      rw [this]

/-- C6 witness: one tracked job whose Slurm answer is the bare JOBID
header line and whose Condor answer is the 8-line zero-jobs form: both
backends report no active job. -/
theorem poll_status_classification_witness :
    slurm_check_cluster_status (some "11 j01-run main 2024-01-02 03:04:05\n".data)
        (fun _ => "  JOBID PARTITION\n".data)
      = .ok (([⟨"11".data, "j01-run".data, "main".data,
                "2024-01-02 03:04:05".data⟩] : List JobRecord).any
          fun e => !slurmNoJobFound ((fun _ => "  JOBID PARTITION\n".data) e.cluster_id))
    ∧ slurm_check_cluster_status (some "11 j01-run main 2024-01-02 03:04:05\n".data)
        (fun _ => "  JOBID PARTITION\n".data) = .ok false := by
  have h := poll_status_classification
    (some "11 j01-run main 2024-01-02 03:04:05\n".data)
    [⟨"11".data, "j01-run".data, "main".data, "2024-01-02 03:04:05".data⟩]
    (fun _ => "  JOBID PARTITION\n".data) (by rfl)
  exact ⟨h.1, by rfl⟩

/-- C7 counterexample: the sbatch acknowledgement "Submitted batch job "
followed by a newline contains no digit at all, yet the Slurm backend's
pattern (whose group is the star-quantified digit run) accepts it: no
assertion fires and a record with the empty cluster id is appended. -/
theorem submit_ack_counterexample :
    "Submitted batch job \n".data.all (fun c => !c.isDigit) = true
    ∧ slurmParseAck "Submitted batch job \n".data = some []
    ∧ slurm_submit_job "Submitted batch job \n".data none "j01-run".data true
        "2024-01-02".data "03:04:05".data
      = .ok (mkIdLine [] "j01-run".data "main".data "2024-01-02".data "03:04:05".data,
             []) := by
  refine ⟨by decide, rfl, rfl⟩

/-- C7 (amended): an acknowledgement in which the fixed pattern finds no
match makes submission raise; a matching acknowledgement appends exactly
one registry line holding the captured cluster id, which for the
Condor-like backend is a nonempty digit string but for the Slurm-like
backend is the possibly-empty digit run after the literal prefix. -/
theorem submit_ack_parsing (out : List Char) (file : Option (List Char))
    (job_name : List Char) (is_main : Bool) (date time : List Char) :
    (slurmParseAck out = none →
        slurm_submit_job out file job_name is_main date time = .exn)
    ∧ (∀ cid, slurmParseAck out = some cid →
        slurm_submit_job out file job_name is_main date time
          = .ok (append_to_file file
              (mkIdLine cid job_name (if is_main then "main".data else "other".data)
                date time), cid)
        ∧ cid.all Char.isDigit = true)
    ∧ (condorParseAck out = none →
        condor_submit_job out file job_name is_main date time = .exn)
    ∧ (∀ cid, condorParseAck out = some cid →
        condor_submit_job out file job_name is_main date time
          = .ok (append_to_file file
              (mkIdLine cid job_name (if is_main then "main".data else "other".data)
                date time), cid)
        ∧ cid ≠ [] ∧ cid.all Char.isDigit = true) := by
  refine ⟨?_, ?_, ?_, ?_⟩
  · intro h
    unfold slurm_submit_job
    rw [h]
  · intro cid hcid
    refine ⟨by unfold slurm_submit_job; rw [hcid], ?_⟩
    unfold slurmParseAck at hcid
    by_cases hp : slurmAckLiteral.isPrefixOf out
    · rw [if_pos hp] at hcid
      cases hcid
      exact List.all_eq_true.mpr fun c hc => List.mem_takeWhile_imp hc
    · rw [if_neg hp] at hcid
      cases hcid
  · intro h
    unfold condor_submit_job
    rw [h]
  · intro cid hcid
    refine ⟨by unfold condor_submit_job; rw [hcid], ?_⟩
    exact condorParseAck_group_digits out cid hcid

/-- C7 witness: well-formed sbatch and condor_submit acknowledgements:
each submission appends one record with the extracted numeric id. -/
theorem submit_ack_parsing_witness :
    slurm_submit_job "Submitted batch job 123\n".data none "a01-run".data true
        "2024-01-02".data "03:04:05".data
      = .ok (append_to_file none
          (mkIdLine "123".data "a01-run".data "main".data "2024-01-02".data
            "03:04:05".data), "123".data)
    ∧ ("123".data ≠ [] ∧ "123".data.all Char.isDigit = true)
    ∧ condor_submit_job "2 job(s) submitted to cluster 456.\n".data none
        "a01-run".data false "2024-01-02".data "03:04:05".data
      = .ok (append_to_file none
          (mkIdLine "456".data "a01-run".data "other".data "2024-01-02".data
            "03:04:05".data), "456".data) := by
  have hs := (submit_ack_parsing "Submitted batch job 123\n".data none "a01-run".data
    true "2024-01-02".data "03:04:05".data).2.1 "123".data (by rfl)
  have hcnd := (submit_ack_parsing "2 job(s) submitted to cluster 456.\n".data none
    "a01-run".data false "2024-01-02".data "03:04:05".data).2.2.2 "456".data (by rfl)
  exact ⟨hs.1, ⟨by decide, hs.2⟩, hcnd.1⟩

/-- C5: appending registry records only ever extends the file content -
earlier lines are never rewritten, reordered or deduplicated - and
reading the registry after appending N records (each a line of
whitespace-free fields) returns exactly those N records in append order,
with cluster id, name, category and time as appended. -/
theorem registry_append_read_roundtrip (rs : List SubmittedRecord)
    (h : ∀ r ∈ rs, goodRecordB r = true) :
    (∀ prior line : List Char, append_to_file (some prior) line = prior ++ line)
    ∧ (∀ content : List Char,
        append_records content rs = content ++ (rs.map recordLine).join)
    ∧ read_id_file (some (append_records [] rs)) = .ok (some (rs.map toJobRecord)) := by
  refine ⟨fun _ _ => rfl, append_records_join rs, ?_⟩
  rw [append_records_join rs []]
  show (match parseIdLines (splitLines ((rs.map recordLine).join)) with
        | .exn => PyResult.exn
        | .ok entries => .ok (some entries)) = _
  rw [parse_join_recordLines rs h]

/-- C5 witness: two records appended to an initially empty registry read
back as exactly those two records in order. -/
theorem registry_append_read_roundtrip_witness :
    read_id_file (some (append_records []
        [⟨"7".data, "j01-build".data, "other".data, "2024-01-02".data, "03:04:05".data⟩,
         ⟨"42".data, "j02-run".data, "main".data, "2024-01-02".data, "03:05:06".data⟩]))
      = .ok (some
        [⟨"7".data, "j01-build".data, "other".data, "2024-01-02 03:04:05".data⟩,
         ⟨"42".data, "j02-run".data, "main".data, "2024-01-02 03:05:06".data⟩]) := by
  have h := (registry_append_read_roundtrip
    [⟨"7".data, "j01-build".data, "other".data, "2024-01-02".data, "03:04:05".data⟩,
     ⟨"42".data, "j02-run".data, "main".data, "2024-01-02".data, "03:05:06".data⟩]
    (by decide)).2.2
  exact h

/-- C3 counterexample: declining the evaluation-directory removal prompt
(the only prompt of this run: no job directory exists) does not abort
the submission - preparation continues, keeps the evaluation directory
and creates the job directory, with outcome `none` instead of a
UserAbort. -/
theorem prepare_job_dir_decline_counterexample :
    prepare_job_dir ⟨none, false, true, true⟩ false [false] false false
      = (⟨none, true, true, true⟩, none) := by
  rfl

/-- C3 (amended): declining a confirm-or-abort prompt ends preparation
as a UserAbort; in particular, with no tracked job running, declining
the prompt that guards clearing a job directory with a tracked main or
dag submission returns UserAbort with the registry file, job directory,
experiment directory and evaluation directory all untouched.  (Declining
the separate evaluation-directory offer merely keeps that directory and
continues, per the counterexample.) -/
theorem prepare_job_dir_clear_declined_aborts (w : World) (answers : List Bool)
    (hasBuildStep : Bool) (cats : List (List Char))
    (hjd : w.jobDirExists = true)
    (hcats : submitted_job_categories w.idFile = .ok cats)
    (hmain : cats.contains "main".data = true ∨ cats.contains "dag".data = true)
    (hans : answers.head? = some false) :
    prepare_job_dir w false answers true hasBuildStep = (w, some .userAbort) := by
  match answers, hans with
  | false :: rest, _ =>
    unfold prepare_job_dir
    rw [if_pos hjd]
    simp only [Bool.false_eq_true, if_false]
    unfold prepare_clear_job_dir
    rw [if_pos rfl, hcats]
    have hcond : (cats.contains "main".data || cats.contains "dag".data) = true := by
      rcases hmain with h | h
      · rw [h, Bool.true_or]
      · rw [h, Bool.or_true]
    simp only [hcond, if_pos]
    rfl

/-- C3 witness: a job directory tracking a main-category job, no running
cluster job, first answer "no": preparation returns UserAbort and the
world - registry content included - is unchanged. -/
theorem prepare_job_dir_clear_declined_aborts_witness :
    prepare_job_dir
        ⟨some "7 j01-run main 2024-01-02 03:04:05\n".data, true, true, true⟩
        false [false] true false
      = (⟨some "7 j01-run main 2024-01-02 03:04:05\n".data, true, true, true⟩,
         some .userAbort) :=
  prepare_job_dir_clear_declined_aborts
    ⟨some "7 j01-run main 2024-01-02 03:04:05\n".data, true, true, true⟩
    [false] false ["main".data] rfl (by rfl) (Or.inl (by decide)) rfl

end Lab
